import Mathlib

/-!
Verification of the quiz-p2p peer-connection negotiation engine and its
signaling mailbox relay.

The embedding covers:
* the client-side `RTCService` connection table and per-peer negotiation
  state machine (`connectToPeer`, `createAndSendOffer`, `handleOffer`,
  `handleAnswer`, the `onconnectionstatechange` handler and the data-channel
  `onopen` handler);
* the server-side signaling route (`POST /api/signaling`): join, offer,
  answer and poll actions over the in-memory room/mailbox store;
* the cursor initialisation of the client-side `SignalingService.join`.

Maps (`Map<string, T>` in the source) are embedded as association lists
with string keys; JavaScript `Date.now()` timestamps are embedded as `Int`
so that subtraction behaves as in the source.
-/

namespace QuizP2P

/-! ## Association lists (embedding of `Map<string, T>`) -/

/-- Lookup of a key, mirroring `Map.get`. -/
def alookup {β : Type} : List (String × β) → String → Option β
  | [], _ => none
  | (k', v') :: rest, k => if k' = k then some v' else alookup rest k

/-- Insertion/replacement of a key, mirroring `Map.set`: the first entry with
the key is replaced in place, otherwise the entry is appended. -/
def aset {β : Type} : List (String × β) → String → β → List (String × β)
  | [], k, v => [(k, v)]
  | (k', v') :: rest, k, v =>
      if k' = k then (k, v) :: rest else (k', v') :: aset rest k v

/-- Update of the value stored at a key (the first matching entry), mirroring
`Map.get` followed by mutation of the retrieved object. -/
def aupdate {β : Type} : List (String × β) → String → (β → β) → List (String × β)
  | [], _, _ => []
  | (k', v') :: rest, k, f =>
      if k' = k then (k, f v') :: rest else (k', v') :: aupdate rest k f

/-- Deletion of a key, mirroring `Map.delete` (removes every entry with the
key; on tables with distinct keys this is the single entry). -/
def aerase {β : Type} : List (String × β) → String → List (String × β)
  | [], _ => []
  | (k', v') :: rest, k =>
      if k' = k then aerase rest k else (k', v') :: aerase rest k

theorem alookup_nil {β : Type} (k : String) : alookup ([] : List (String × β)) k = none := rfl

theorem alookup_cons {β : Type} (k' : String) (v' : β) (rest : List (String × β)) (k : String) :
    alookup ((k', v') :: rest) k = if k' = k then some v' else alookup rest k := rfl

theorem alookup_aset_self {β : Type} (t : List (String × β)) (k : String) (v : β) :
    alookup (aset t k v) k = some v := by
  induction t with
  | nil => simp [aset, alookup]
  | cons hd rest ih =>
      obtain ⟨k', v'⟩ := hd
      by_cases h : k' = k
      · simp [aset, h, alookup]
      · simp [aset, h, alookup, ih]

theorem alookup_aset_ne {β : Type} (t : List (String × β)) (k k₂ : String) (v : β)
    (h : k₂ ≠ k) : alookup (aset t k v) k₂ = alookup t k₂ := by
  induction t with
  | nil =>
      have hne : ¬ (k = k₂) := fun hh => h hh.symm
      simp [aset, alookup, hne]
  | cons hd rest ih =>
      obtain ⟨k', v'⟩ := hd
      by_cases hk : k' = k
      · subst hk
        have hne : ¬ (k' = k₂) := fun hh => h hh.symm
        simp [aset, alookup, hne]
      · simp [aset, hk, alookup, ih]

theorem alookup_aupdate {β : Type} (t : List (String × β)) (k k₂ : String) (f : β → β) :
    alookup (aupdate t k f) k₂ =
      if k = k₂ then (alookup t k).map f else alookup t k₂ := by
  induction t with
  | nil => simp [aupdate, alookup]
  | cons hd rest ih =>
      obtain ⟨k', v'⟩ := hd
      by_cases hk : k' = k
      · subst hk
        by_cases hk2 : k' = k₂
        · subst hk2; simp [aupdate, alookup]
        · have hne : ¬ (k' = k₂) := hk2
          simp [aupdate, alookup, hne]
      · by_cases hk2 : k' = k₂
        · subst hk2
          have hne : ¬ (k = k') := fun hh => hk hh.symm
          simp [aupdate, alookup, hk, hne]
        · simp [aupdate, hk, alookup, hk2, ih]

theorem alookup_aerase_self {β : Type} (t : List (String × β)) (k : String) :
    alookup (aerase t k) k = none := by
  induction t with
  | nil => simp [aerase, alookup]
  | cons hd rest ih =>
      obtain ⟨k', v'⟩ := hd
      by_cases hk : k' = k
      · simp [aerase, hk, ih]
      · simp [aerase, hk, alookup, ih]

theorem alookup_aerase_ne {β : Type} (t : List (String × β)) (k k₂ : String) (h : k₂ ≠ k) :
    alookup (aerase t k) k₂ = alookup t k₂ := by
  induction t with
  | nil => simp [aerase]
  | cons hd rest ih =>
      obtain ⟨k', v'⟩ := hd
      by_cases hk : k' = k
      · subst hk
        have hne : ¬ (k' = k₂) := fun hh => h hh.symm
        simp [aerase, alookup, ih, hne]
      · simp [aerase, hk, alookup, ih]

/-- Keys of an association list. -/
def akeys {β : Type} (t : List (String × β)) : List String := t.map Prod.fst

/-- Distinctness of the keys: the defining invariant of a `Map`. -/
def keysNodup {β : Type} (t : List (String × β)) : Prop := (akeys t).Nodup

theorem mem_akeys_aset {β : Type} (t : List (String × β)) (k k₂ : String) (v : β)
    (h : k₂ ∈ akeys (aset t k v)) : k₂ ∈ akeys t ∨ k₂ = k := by
  induction t with
  | nil =>
      simp [aset, akeys] at h
      exact Or.inr h
  | cons hd rest ih =>
      obtain ⟨k', v'⟩ := hd
      by_cases hk : k' = k
      · subst hk
        simp [aset, akeys] at h
        rcases h with h | h
        · exact Or.inr h
        · exact Or.inl (by simp [akeys, h])
      · simp [aset, hk, akeys] at h
        rcases h with h | h
        · exact Or.inl (by simp [akeys, h])
        · rcases ih (by simpa [akeys] using h) with h2 | h2
          · exact Or.inl (by simp [akeys] at h2 ⊢; exact Or.inr h2)
          · exact Or.inr h2

theorem keysNodup_aset {β : Type} (t : List (String × β)) (k : String) (v : β)
    (h : keysNodup t) : keysNodup (aset t k v) := by
  induction t with
  | nil => simp [aset, keysNodup, akeys]
  | cons hd rest ih =>
      obtain ⟨k', v'⟩ := hd
      rw [keysNodup, akeys, List.map_cons, List.nodup_cons] at h
      by_cases hk : k' = k
      · subst hk
        rw [keysNodup, aset, if_pos rfl, akeys, List.map_cons, List.nodup_cons]
        exact h
      · have h2 := ih h.2
        rw [keysNodup, aset, if_neg hk, akeys, List.map_cons, List.nodup_cons]
        refine ⟨fun hk2 => ?_, h2⟩
        rcases mem_akeys_aset rest k k' v hk2 with hm | hm
        · exact h.1 hm
        · exact hk hm

theorem aerase_sublist {β : Type} (t : List (String × β)) (k : String) :
    (aerase t k).Sublist t := by
  induction t with
  | nil => simp [aerase]
  | cons hd rest ih =>
      obtain ⟨k', v'⟩ := hd
      by_cases hk : k' = k
      · simpa [aerase, hk] using ih.cons (k', v')
      · simpa [aerase, hk] using ih.cons₂ (k', v')

theorem keysNodup_aerase {β : Type} (t : List (String × β)) (k : String)
    (h : keysNodup t) : keysNodup (aerase t k) := by
  exact List.Nodup.sublist (List.Sublist.map Prod.fst (aerase_sublist t k)) h

theorem keysNodup_nil {β : Type} : keysNodup ([] : List (String × β)) := by
  simp [keysNodup, akeys]

/-- Number of entries stored under a key. -/
def countFor {β : Type} (t : List (String × β)) (k : String) : Nat :=
  t.countP (fun p => p.1 == k)

theorem countFor_le_one {β : Type} (t : List (String × β)) (k : String)
    (h : keysNodup t) : countFor t k ≤ 1 := by
  induction t with
  | nil => simp [countFor]
  | cons hd rest ih =>
      obtain ⟨k', v'⟩ := hd
      rw [keysNodup, akeys, List.map_cons, List.nodup_cons] at h
      by_cases hk : k' = k
      · subst hk
        have hzero : countFor rest k' = 0 := by
          rw [countFor, List.countP_eq_zero]
          intro p hp
          simp only [beq_iff_eq]
          intro hc
          exact h.1 (by have hm := List.mem_map_of_mem Prod.fst hp; rwa [hc] at hm)
        rw [countFor, List.countP_cons]
        rw [countFor] at hzero
        simp [hzero]
      · have hrest := ih h.2
        rw [countFor, List.countP_cons]
        rw [countFor] at hrest
        simp [hk, hrest]

/-! ## Client side: the per-peer negotiation state machine (`RTCService`) -/

/-- Connection states of a peer negotiation, from the `ConnectionState` enum. -/
inductive ConnectionState where
  | NEW
  | CONNECTING
  | OFFER_SENT
  | OFFER_RECEIVED
  | ANSWER_SENT
  | ANSWER_RECEIVED
  | CONNECTED
  | DISCONNECTED
  | FAILED
deriving DecidableEq

/-- One `PeerConnection` record of the `RTCService.connections` table.
The `RTCPeerConnection` handle is not itself modelled; the optional data
channel is modelled by its presence flag. -/
structure PeerConnection where
  peerId : String
  isHost : Bool
  hasDataChannel : Bool
  isInitiator : Bool
  connected : Bool
  state : ConnectionState
  processingSignal : Bool
deriving DecidableEq

/-- Observable actions the `RTCService` performs on its collaborators: the
`RTCPeerConnection` transport, the data channel, the signaling client and the
registered callbacks. A run of an operation produces the list of actions in
the order the source performs them (`stateSet` records each assignment to
`peerConnection.state`). -/
inductive Effect where
  | stateSet (st : ConnectionState)
  | closeChannel (peerId : String)
  | closeConnection (peerId : String)
  | setRemote (peerId : String) (desc : String)
  | setLocal (peerId : String) (desc : String)
  | sendOfferSig (target : String) (offer : String)
  | sendAnswerSig (target : String) (answer : String)
  | connectCb (peerId : String)
  | disconnectCb (peerId : String)
  | peerCountUpdate
  | retryScheduled (peerId : String)
deriving DecidableEq

/-- Outcome of one signaling-handler invocation. -/
inductive HandleResult where
  | retried
  | ignored
  | processed
  | errored
deriving DecidableEq

/-- Behaviour of the browser transport for one handler invocation: the
descriptions `createOffer`/`createAnswer` produce (`none` models a rejected
promise), and whether `setRemoteDescription`/`setLocalDescription` succeed. -/
structure Transport where
  createOffer : Option String
  createAnswer : Option String
  setRemoteOk : Bool
  setLocalOk : Bool
deriving DecidableEq

/-- Transport on which every operation succeeds. -/
def trOk : Transport :=
  { createOffer := some "offer-sdp", createAnswer := some "answer-sdp",
    setRemoteOk := true, setLocalOk := true }

/-- Embedding of `RTCService.createAndSendOffer` restricted to one record
(the record is looked up by the caller). Mirrors the source in order:
the `CONNECTED` early return, the `processingSignal` busy retry, the lock
acquisition, the five-state invalid check, the `CONNECTING` assignment,
`createOffer`, `setLocalDescription`, the `OFFER_SENT` assignment,
`signaling.sendOffer`, and the `finally` clearing the lock. -/
def createAndSendOfferRec (tr : Transport) (rec : PeerConnection) :
    PeerConnection × List Effect × HandleResult :=
  if rec.state = ConnectionState.CONNECTED then (rec, [], HandleResult.ignored)
  else if rec.processingSignal then
    (rec, [Effect.retryScheduled rec.peerId], HandleResult.retried)
  else if rec.state = ConnectionState.OFFER_SENT ∨
          rec.state = ConnectionState.OFFER_RECEIVED ∨
          rec.state = ConnectionState.ANSWER_SENT ∨
          rec.state = ConnectionState.ANSWER_RECEIVED ∨
          rec.state = ConnectionState.CONNECTED then
    ({ rec with processingSignal := false }, [], HandleResult.ignored)
  else
    match tr.createOffer with
    | none =>
        ({ rec with state := ConnectionState.CONNECTING, processingSignal := false },
         [Effect.stateSet ConnectionState.CONNECTING], HandleResult.errored)
    | some off =>
        if tr.setLocalOk = false then
          ({ rec with state := ConnectionState.CONNECTING, processingSignal := false },
           [Effect.stateSet ConnectionState.CONNECTING], HandleResult.errored)
        else
          ({ rec with state := ConnectionState.OFFER_SENT, processingSignal := false },
           [Effect.stateSet ConnectionState.CONNECTING,
            Effect.setLocal rec.peerId off,
            Effect.stateSet ConnectionState.OFFER_SENT,
            Effect.sendOfferSig rec.peerId off], HandleResult.processed)

/-- Embedding of `RTCService.handleOffer` restricted to an existing record.
Mirrors the source in order: the `CONNECTED` early return, the busy retry,
the lock acquisition, the three-state invalid check, the `OFFER_RECEIVED`
assignment, `setRemoteDescription`, `createAnswer`, `setLocalDescription`,
the `ANSWER_SENT` assignment, `signaling.sendAnswer`, and the `finally`
clearing the lock. -/
def handleOfferRec (tr : Transport) (rec : PeerConnection) (offer : String) :
    PeerConnection × List Effect × HandleResult :=
  if rec.state = ConnectionState.CONNECTED then (rec, [], HandleResult.ignored)
  else if rec.processingSignal then
    (rec, [Effect.retryScheduled rec.peerId], HandleResult.retried)
  else if rec.state = ConnectionState.OFFER_SENT ∨
          rec.state = ConnectionState.ANSWER_RECEIVED ∨
          rec.state = ConnectionState.CONNECTED then
    ({ rec with processingSignal := false }, [], HandleResult.ignored)
  else if tr.setRemoteOk = false then
    ({ rec with state := ConnectionState.OFFER_RECEIVED, processingSignal := false },
     [Effect.stateSet ConnectionState.OFFER_RECEIVED], HandleResult.errored)
  else
    match tr.createAnswer with
    | none =>
        ({ rec with state := ConnectionState.OFFER_RECEIVED, processingSignal := false },
         [Effect.stateSet ConnectionState.OFFER_RECEIVED,
          Effect.setRemote rec.peerId offer], HandleResult.errored)
    | some ans =>
        if tr.setLocalOk = false then
          ({ rec with state := ConnectionState.OFFER_RECEIVED, processingSignal := false },
           [Effect.stateSet ConnectionState.OFFER_RECEIVED,
            Effect.setRemote rec.peerId offer], HandleResult.errored)
        else
          ({ rec with state := ConnectionState.ANSWER_SENT, processingSignal := false },
           [Effect.stateSet ConnectionState.OFFER_RECEIVED,
            Effect.setRemote rec.peerId offer,
            Effect.setLocal rec.peerId ans,
            Effect.stateSet ConnectionState.ANSWER_SENT,
            Effect.sendAnswerSig rec.peerId ans], HandleResult.processed)

/-- Embedding of `RTCService.handleAnswer` restricted to an existing record.
Mirrors the source in order: the `CONNECTED` early return, the busy retry,
the lock acquisition, the two-state invalid check, `setRemoteDescription`,
the `ANSWER_RECEIVED` assignment, and the `finally` clearing the lock. -/
def handleAnswerRec (tr : Transport) (rec : PeerConnection) (answer : String) :
    PeerConnection × List Effect × HandleResult :=
  if rec.state = ConnectionState.CONNECTED then (rec, [], HandleResult.ignored)
  else if rec.processingSignal then
    (rec, [Effect.retryScheduled rec.peerId], HandleResult.retried)
  else if rec.state = ConnectionState.ANSWER_RECEIVED ∨
          rec.state = ConnectionState.CONNECTED then
    ({ rec with processingSignal := false }, [], HandleResult.ignored)
  else if tr.setRemoteOk = false then
    ({ rec with processingSignal := false }, [], HandleResult.errored)
  else
    ({ rec with state := ConnectionState.ANSWER_RECEIVED, processingSignal := false },
     [Effect.setRemote rec.peerId answer,
      Effect.stateSet ConnectionState.ANSWER_RECEIVED], HandleResult.processed)

/-- The connections table of the `RTCService` supervisor. -/
def ConnTable : Type := List (String × PeerConnection)

/-- The record `connectToPeer` stores before any negotiation step: state
`NEW`, not connected, lock free; the initiator creates the data channel. -/
def freshRecord (peerId : String) (isHost isInitiator : Bool) : PeerConnection :=
  { peerId := peerId, isHost := isHost, hasDataChannel := isInitiator,
    isInitiator := isInitiator, connected := false,
    state := ConnectionState.NEW, processingSignal := false }

/-- Table-level `RTCService.createAndSendOffer`: looks the record up
(returning silently when absent) and stores the updated record back. -/
def createAndSendOffer (tr : Transport) (t : ConnTable) (peerId : String) :
    ConnTable × List Effect :=
  match alookup t peerId with
  | none => (t, [])
  | some rec =>
      let r := createAndSendOfferRec tr rec
      (aset t peerId r.1, r.2.1)

/-- Tail of `RTCService.connectToPeer` after the existing-record checks: the
fresh record is stored, and when this side is the initiator an offer is
created and sent. -/
def connectFresh (tr : Transport) (t : ConnTable) (peerId : String)
    (isHost isInitiator : Bool) : ConnTable × List Effect :=
  let t1 := aset t peerId (freshRecord peerId isHost isInitiator)
  if isInitiator then createAndSendOffer tr t1 peerId else (t1, [])

/-- Teardown actions `connectToPeer` performs on a terminal leftover record:
close the data channel when present, then close the transport connection. -/
def teardownEffects (ex : PeerConnection) (peerId : String) : List Effect :=
  (if ex.hasDataChannel then [Effect.closeChannel peerId] else []) ++
    [Effect.closeConnection peerId]

/-- Embedding of `RTCService.connectToPeer`: skips self, skips a peer whose
existing record is non-terminal, tears a terminal record down (closing the
channel and the connection) and deletes it before creating the fresh record. -/
def connectToPeer (tr : Transport) (selfId : String) (t : ConnTable)
    (peerId : String) (isHost isInitiator : Bool) : ConnTable × List Effect :=
  if peerId = selfId then (t, [])
  else
    match alookup t peerId with
    | some ex =>
        if ex.state ≠ ConnectionState.DISCONNECTED ∧
           ex.state ≠ ConnectionState.FAILED then (t, [])
        else
          let r := connectFresh tr (aerase t peerId) peerId isHost isInitiator
          (r.1, teardownEffects ex peerId ++ r.2)
    | none => connectFresh tr t peerId isHost isInitiator

/-- Values of `RTCPeerConnection.connectionState` the
`onconnectionstatechange` handler switches on (`other` covers the values the
switch has no case for). -/
inductive RTCConnEvent where
  | connected
  | disconnected
  | failed
  | closed
  | other
deriving DecidableEq

/-- Embedding of the `connection.onconnectionstatechange` handler restricted
to one record: the `connected` arm sets state `CONNECTED` and fires the
connection callback and the peer-count update only when `connected` was
false; the `disconnected`/`failed`/`closed` arms set the terminal state and
fire the disconnection side effect only when `connected` was true. -/
def onConnectionStateChangeRec (rec : PeerConnection) (ev : RTCConnEvent) :
    PeerConnection × List Effect :=
  match ev with
  | RTCConnEvent.connected =>
      if rec.connected = false then
        ({ rec with state := ConnectionState.CONNECTED, connected := true },
         [Effect.stateSet ConnectionState.CONNECTED,
          Effect.connectCb rec.peerId, Effect.peerCountUpdate])
      else
        ({ rec with state := ConnectionState.CONNECTED },
         [Effect.stateSet ConnectionState.CONNECTED])
  | RTCConnEvent.disconnected =>
      if rec.connected then
        ({ rec with state := ConnectionState.DISCONNECTED, connected := false },
         [Effect.stateSet ConnectionState.DISCONNECTED,
          Effect.disconnectCb rec.peerId, Effect.peerCountUpdate])
      else
        ({ rec with state := ConnectionState.DISCONNECTED },
         [Effect.stateSet ConnectionState.DISCONNECTED])
  | RTCConnEvent.failed =>
      if rec.connected then
        ({ rec with state := ConnectionState.FAILED, connected := false },
         [Effect.stateSet ConnectionState.FAILED,
          Effect.disconnectCb rec.peerId, Effect.peerCountUpdate])
      else
        ({ rec with state := ConnectionState.FAILED },
         [Effect.stateSet ConnectionState.FAILED])
  | RTCConnEvent.closed =>
      if rec.connected then
        ({ rec with state := ConnectionState.DISCONNECTED, connected := false },
         [Effect.stateSet ConnectionState.DISCONNECTED,
          Effect.disconnectCb rec.peerId, Effect.peerCountUpdate])
      else
        ({ rec with state := ConnectionState.DISCONNECTED },
         [Effect.stateSet ConnectionState.DISCONNECTED])
  | RTCConnEvent.other => (rec, [])

/-- Embedding of the `channel.onopen` handler installed by
`RTCService.setupDataChannel`: it sets `connected`, sets state `CONNECTED`
and fires the connection callback and the peer-count update with no guard
on the previous value of `connected`. -/
def channelOnOpenRec (rec : PeerConnection) : PeerConnection × List Effect :=
  ({ rec with connected := true, state := ConnectionState.CONNECTED },
   [Effect.stateSet ConnectionState.CONNECTED,
    Effect.connectCb rec.peerId, Effect.peerCountUpdate])

/-- Number of connection-callback invocations in a list of actions. -/
def connectCbCount (l : List Effect) : Nat :=
  l.countP (fun e =>
    match e with
    | Effect.connectCb _ => true
    | _ => false)

/-! ## Server side: the signaling route (`POST /api/signaling`) -/

/-- One pending offer or answer record of a mailbox: sender, payload and
enqueue timestamp (`{from, offer|answer, timestamp}` in the source). -/
structure SignalRecord where
  fromPeer : String
  payload : String
  timestamp : Int
deriving DecidableEq

/-- The `PeerInfo` mailbox of the store. -/
structure PeerInfo where
  peerId : String
  lastSeen : Int
  offers : List SignalRecord
  answers : List SignalRecord
deriving DecidableEq

/-- The `RoomInfo` entry of the store. -/
structure RoomInfo where
  hostPeerId : Option String
  peers : List (String × PeerInfo)
  created : Int
  lastActivity : Int
deriving DecidableEq

/-- One `{peerId, isHost}` entry of a join or poll response. -/
structure PeerEntry where
  peerId : String
  isHost : Bool
deriving DecidableEq

/-- Body of the join success response. The literal object the source builds
has exactly the fields `success`, `peers`, `isHost` and `hostPeerId`. -/
structure JoinResponse where
  success : Bool
  peers : List PeerEntry
  isHost : Bool
  hostPeerId : Option String
deriving DecidableEq

/-- Body of the poll success response. -/
structure PollResponse where
  success : Bool
  offers : List SignalRecord
  answers : List SignalRecord
  newPeers : List PeerEntry
  timestamp : Int
deriving DecidableEq

/-- Responses of the route: the join body, the bare `{success: true}` body
of offer/answer deposits, the poll body, and JSON error bodies with their
HTTP status. -/
inductive SignalResponse where
  | joinR (r : JoinResponse)
  | okR
  | pollR (r : PollResponse)
  | errorR (msg : String) (status : Nat)
deriving DecidableEq

/-- Parsed request body of the route. Absent JSON fields are `none`; string
falsiness (`!value`) is the comparison with the empty string. -/
structure SignalRequest where
  action : String
  roomId : String
  peerId : String
  isHost : Bool
  target : Option String
  offer : Option String
  answer : Option String
  lastPoll : Option Int
deriving DecidableEq

/-- Common prelude of every valid request: fetch or create the room, refresh
`lastActivity`, create the requesting peer's mailbox when absent, and refresh
its `lastSeen`. -/
def roomPrelude (rooms : List (String × RoomInfo)) (roomId peerId : String)
    (now : Int) : RoomInfo :=
  let room0 := (alookup rooms roomId).getD
    { hostPeerId := none, peers := [], created := now, lastActivity := now }
  let room1 := { room0 with lastActivity := now }
  let room2 :=
    match alookup room1.peers peerId with
    | some _ => room1
    | none =>
        { room1 with
            peers := aset room1.peers peerId
                       ({ peerId := peerId, lastSeen := now, offers := [], answers := [] }) }
  { room2 with peers := aupdate room2.peers peerId (fun p => { p with lastSeen := now }) }

/-- The `join` action: registers the requester as host when flagged and
returns the other peers, each with a derived `isHost` flag. -/
def doJoin (room : RoomInfo) (peerId : String) (isHost : Bool) :
    RoomInfo × SignalResponse :=
  let room1 := if isHost then { room with hostPeerId := some peerId } else room
  let peers := ((akeys room1.peers).filter (fun idp => idp != peerId)).map
    (fun idp => { peerId := idp, isHost := room1.hostPeerId = some idp : PeerEntry })
  (room1, SignalResponse.joinR
    { success := true, peers := peers,
      isHost := room1.hostPeerId = some peerId, hostPeerId := room1.hostPeerId })

/-- The `offer` action: creates the target's mailbox when absent (with
`lastSeen` set 60000 ms in the past) and appends the timestamped record. -/
def doOffer (room : RoomInfo) (peerId target payload : String) (now : Int) :
    RoomInfo × SignalResponse :=
  let room1 :=
    match alookup room.peers target with
    | some _ => room
    | none =>
        { room with
            peers := aset room.peers target
                       ({ peerId := target, lastSeen := now - 60000, offers := [], answers := [] }) }
  let room2 := { room1 with
    peers := aupdate room1.peers target
               (fun p => { p with
                 offers := p.offers ++
                             [{ fromPeer := peerId, payload := payload, timestamp := now }] }) }
  (room2, SignalResponse.okR)

/-- The `answer` action: rejects with a 404 error when the target's mailbox
is absent, otherwise appends the timestamped record. -/
def doAnswer (room : RoomInfo) (peerId target payload : String) (now : Int) :
    RoomInfo × SignalResponse :=
  match alookup room.peers target with
  | none => (room, SignalResponse.errorR "Target peer not found" 404)
  | some _ =>
      let room1 := { room with
        peers := aupdate room.peers target
                   (fun p => { p with
                     answers := p.answers ++
                                  [{ fromPeer := peerId, payload := payload, timestamp := now }] }) }
      (room1, SignalResponse.okR)

/-- Mailbox-creation-or-touch test the poll action uses for `newPeers`:
whether the peer's `lastSeen` is newer than the cursor. -/
def peerSeenAfter (peers : List (String × PeerInfo)) (idp : String) (c : Int) : Bool :=
  match alookup peers idp with
  | some p => decide (c < p.lastSeen)
  | none => false

/-- Pruning of one mailbox during a poll: only records newer than the
60000 ms retention window are kept; the rest of the mailbox is untouched. -/
def pruneInfo (now : Int) (p : PeerInfo) : PeerInfo :=
  { p with
    offers := p.offers.filter (fun o => decide (now - 60000 < o.timestamp)),
    answers := p.answers.filter (fun a => decide (now - 60000 < a.timestamp)) }

/-- The `poll` action: computes the offers and answers across all mailboxes
with sender distinct from the poller and timestamp newer than the cursor,
then prunes every record older than the 60000 ms retention window, then
computes the `newPeers` list, and reports the server's current time. The
response is computed from the unpruned store; pruning only affects later
requests. -/
def doPoll (room : RoomInfo) (peerId : String) (lastPoll : Int) (now : Int) :
    RoomInfo × SignalResponse :=
  let offers := ((room.peers.map Prod.snd).flatMap PeerInfo.offers).filter
    (fun o => o.fromPeer != peerId && decide (lastPoll < o.timestamp))
  let answers := ((room.peers.map Prod.snd).flatMap PeerInfo.answers).filter
    (fun a => a.fromPeer != peerId && decide (lastPoll < a.timestamp))
  let room1 := { room with peers := room.peers.map (fun kp => (kp.1, pruneInfo now kp.2)) }
  let newPeers := ((akeys room1.peers).filter
      (fun idp => idp != peerId && peerSeenAfter room1.peers idp lastPoll)).map
    (fun idp => { peerId := idp, isHost := room1.hostPeerId = some idp : PeerEntry })
  (room1, SignalResponse.pollR
    { success := true, offers := offers, answers := answers,
      newPeers := newPeers, timestamp := now })

/-- Embedding of the route's `POST` handler: validation, the common prelude,
the action dispatch, and the write-back of the mutated room. -/
def handlePost (rooms : List (String × RoomInfo)) (req : SignalRequest)
    (now : Int) : List (String × RoomInfo) × SignalResponse :=
  if req.action = "" ∨ req.roomId = "" ∨ req.peerId = "" then
    (rooms, SignalResponse.errorR "Invalid request" 400)
  else
    let room := roomPrelude rooms req.roomId req.peerId now
    match req.action with
    | "join" =>
        let r := doJoin room req.peerId req.isHost
        (aset rooms req.roomId r.1, r.2)
    | "offer" =>
        if req.target.getD "" = "" ∨ req.offer.getD "" = "" then
          (aset rooms req.roomId room, SignalResponse.errorR "Invalid offer" 400)
        else
          let r := doOffer room req.peerId (req.target.getD "") (req.offer.getD "") now
          (aset rooms req.roomId r.1, r.2)
    | "answer" =>
        if req.target.getD "" = "" ∨ req.answer.getD "" = "" then
          (aset rooms req.roomId room, SignalResponse.errorR "Invalid answer" 400)
        else
          let r := doAnswer room req.peerId (req.target.getD "") (req.answer.getD "") now
          (aset rooms req.roomId r.1, r.2)
    | "poll" =>
        let r := doPoll room req.peerId (req.lastPoll.getD 0) now
        (aset rooms req.roomId r.1, r.2)
    | _ => (aset rooms req.roomId room, SignalResponse.errorR "Invalid action" 400)

/-! ## JSON serialisation of the route's responses -/

/-- JSON values, as produced by `NextResponse.json`. -/
inductive Json where
  | null
  | bool (b : Bool)
  | num (n : Int)
  | str (s : String)
  | arr (elems : List Json)
  | obj (fields : List (String × Json))

/-- Field access on a JSON object. -/
def jsonGet : Json → String → Option Json
  | Json.obj fields, k => alookup fields k
  | _, _ => none

/-- Serialisation of a `{peerId, isHost}` entry. -/
def peerEntryJson (pe : PeerEntry) : Json :=
  Json.obj [("peerId", Json.str pe.peerId), ("isHost", Json.bool pe.isHost)]

/-- Serialisation of a record under its payload key (`"offer"` or
`"answer"`). -/
def signalRecordJson (key : String) (r : SignalRecord) : Json :=
  Json.obj [("from", Json.str r.fromPeer), (key, Json.str r.payload),
    ("timestamp", Json.num r.timestamp)]

/-- Serialisation of the route's response bodies, mirroring the literal
objects passed to `NextResponse.json` (a field holding `undefined`, such as
an unset `hostPeerId`, is dropped by JSON serialisation). -/
def responseJson : SignalResponse → Json
  | SignalResponse.joinR r =>
      Json.obj ([("success", Json.bool r.success),
        ("peers", Json.arr (r.peers.map peerEntryJson)),
        ("isHost", Json.bool r.isHost)] ++
        (match r.hostPeerId with
         | some h => [("hostPeerId", Json.str h)]
         | none => []))
  | SignalResponse.okR => Json.obj [("success", Json.bool true)]
  | SignalResponse.pollR r =>
      Json.obj [("success", Json.bool r.success),
        ("offers", Json.arr (r.offers.map (signalRecordJson "offer"))),
        ("answers", Json.arr (r.answers.map (signalRecordJson "answer"))),
        ("newPeers", Json.arr (r.newPeers.map peerEntryJson)),
        ("timestamp", Json.num r.timestamp)]
  | SignalResponse.errorR msg _ => Json.obj [("error", Json.str msg)]

/-! ## Client side: cursor initialisation of `SignalingService.join` -/

/-- Embedding of the tail of `SignalingService.join` after a successful
response: the polling cursor `lastPollTimestamp` is set to `Date.now()` of
the client, whatever the response carries, and the peer list is returned. -/
def clientJoin (resp : SignalResponse) (clientNow : Int) :
    Option (List PeerEntry × Int) :=
  match resp with
  | SignalResponse.joinR r => if r.success then some (r.peers, clientNow) else none
  | _ => none

/-! ## Lemmas about the per-record negotiation operations -/

theorem handleOfferRec_invalid_noop (tr : Transport) (rec : PeerConnection) (offer : String)
    (hps : rec.processingSignal = false)
    (hst : rec.state = ConnectionState.OFFER_SENT ∨
           rec.state = ConnectionState.ANSWER_RECEIVED ∨
           rec.state = ConnectionState.CONNECTED) :
    handleOfferRec tr rec offer = (rec, [], HandleResult.ignored) := by
  obtain ⟨pid, ih, hdc, ii, conn, st, ps⟩ := rec
  simp only at hps hst
  subst hps
  rcases hst with h | h | h <;> subst h <;> simp [handleOfferRec]

theorem handleOfferRec_process (tr : Transport) (rec : PeerConnection) (offer ans : String)
    (hps : rec.processingSignal = false)
    (hsr : tr.setRemoteOk = true) (hca : tr.createAnswer = some ans)
    (hsl : tr.setLocalOk = true)
    (hst : ¬ (rec.state = ConnectionState.OFFER_SENT ∨
              rec.state = ConnectionState.ANSWER_RECEIVED ∨
              rec.state = ConnectionState.CONNECTED)) :
    handleOfferRec tr rec offer =
      ({ rec with state := ConnectionState.ANSWER_SENT, processingSignal := false },
       [Effect.stateSet ConnectionState.OFFER_RECEIVED,
        Effect.setRemote rec.peerId offer,
        Effect.setLocal rec.peerId ans,
        Effect.stateSet ConnectionState.ANSWER_SENT,
        Effect.sendAnswerSig rec.peerId ans], HandleResult.processed) := by
  obtain ⟨pid, ih, hdc, ii, conn, st, ps⟩ := rec
  simp only at hps hst ⊢
  subst hps
  push_neg at hst
  obtain ⟨h1, h2, h3⟩ := hst
  cases st <;> simp_all [handleOfferRec]

theorem handleAnswerRec_invalid_noop (tr : Transport) (rec : PeerConnection) (answer : String)
    (hps : rec.processingSignal = false)
    (hst : rec.state = ConnectionState.ANSWER_RECEIVED ∨
           rec.state = ConnectionState.CONNECTED) :
    handleAnswerRec tr rec answer = (rec, [], HandleResult.ignored) := by
  obtain ⟨pid, ih, hdc, ii, conn, st, ps⟩ := rec
  simp only at hps hst
  subst hps
  rcases hst with h | h <;> subst h <;> simp [handleAnswerRec]

theorem createAndSendOfferRec_invalid_noop (tr : Transport) (rec : PeerConnection)
    (hps : rec.processingSignal = false)
    (hst : rec.state = ConnectionState.OFFER_SENT ∨
           rec.state = ConnectionState.OFFER_RECEIVED ∨
           rec.state = ConnectionState.ANSWER_SENT ∨
           rec.state = ConnectionState.ANSWER_RECEIVED ∨
           rec.state = ConnectionState.CONNECTED) :
    createAndSendOfferRec tr rec = (rec, [], HandleResult.ignored) := by
  obtain ⟨pid, ih, hdc, ii, conn, st, ps⟩ := rec
  simp only at hps hst
  subst hps
  rcases hst with h | h | h | h | h <;> subst h <;> simp [createAndSendOfferRec]

theorem createAndSendOfferRec_process (tr : Transport) (rec : PeerConnection) (off : String)
    (hps : rec.processingSignal = false)
    (hco : tr.createOffer = some off) (hsl : tr.setLocalOk = true)
    (hst : ¬ (rec.state = ConnectionState.OFFER_SENT ∨
              rec.state = ConnectionState.OFFER_RECEIVED ∨
              rec.state = ConnectionState.ANSWER_SENT ∨
              rec.state = ConnectionState.ANSWER_RECEIVED ∨
              rec.state = ConnectionState.CONNECTED)) :
    createAndSendOfferRec tr rec =
      ({ rec with state := ConnectionState.OFFER_SENT, processingSignal := false },
       [Effect.stateSet ConnectionState.CONNECTING,
        Effect.setLocal rec.peerId off,
        Effect.stateSet ConnectionState.OFFER_SENT,
        Effect.sendOfferSig rec.peerId off], HandleResult.processed) := by
  obtain ⟨pid, ih, hdc, ii, conn, st, ps⟩ := rec
  simp only at hps hst ⊢
  subst hps
  push_neg at hst
  obtain ⟨h1, h2, h3, h4, h5⟩ := hst
  cases st <;> simp_all [createAndSendOfferRec]

theorem createAndSendOfferRec_lock_released (tr : Transport) (rec : PeerConnection)
    (hps : rec.processingSignal = false) :
    ((createAndSendOfferRec tr rec).1).processingSignal = false := by
  obtain ⟨pid, ih, hdc, ii, conn, st, ps⟩ := rec
  simp only at hps
  subst hps
  obtain ⟨co, ca, sr, sl⟩ := tr
  cases st <;> cases co <;> cases sl <;> simp [createAndSendOfferRec]

/-! ## Concrete records used by witnesses and counterexamples -/

/-- Record in state `ANSWER_SENT` with a free lock. -/
def recAnswerSent : PeerConnection :=
  { peerId := "p", isHost := false, hasDataChannel := true, isInitiator := false,
    connected := false, state := ConnectionState.ANSWER_SENT, processingSignal := false }

/-- Record in state `ANSWER_RECEIVED` with a free lock. -/
def recAnswerReceived : PeerConnection :=
  { peerId := "p", isHost := false, hasDataChannel := false, isInitiator := true,
    connected := false, state := ConnectionState.ANSWER_RECEIVED, processingSignal := false }

/-- Record in state `NEW` with a free lock. -/
def recNew : PeerConnection :=
  { peerId := "p", isHost := false, hasDataChannel := false, isInitiator := false,
    connected := false, state := ConnectionState.NEW, processingSignal := false }

/-- Record awaiting its transport, not yet marked connected. -/
def recConnecting : PeerConnection :=
  { peerId := "p", isHost := false, hasDataChannel := true, isInitiator := true,
    connected := false, state := ConnectionState.CONNECTING, processingSignal := false }

/-- Record in terminal state `FAILED`, owning a data channel. -/
def recFailed : PeerConnection :=
  { peerId := "b", isHost := false, hasDataChannel := true, isInitiator := true,
    connected := false, state := ConnectionState.FAILED, processingSignal := false }

/-! ## C7: handleOffer state guard -/

/-- Claim C7: `handleOffer` on an existing record with a free lock is a no-op
(record unchanged, no actions) when the state is one of
`OFFER_SENT`/`ANSWER_RECEIVED`/`CONNECTED`; in every other state it applies
the remote description, creates and applies a local answer, leaves the record
in `ANSWER_SENT`, and sends the answer to the signaling client. -/
theorem handleOffer_state_guard (tr : Transport) (rec : PeerConnection) (offer ans : String)
    (hps : rec.processingSignal = false)
    (hsr : tr.setRemoteOk = true) (hca : tr.createAnswer = some ans)
    (hsl : tr.setLocalOk = true) :
    ((rec.state = ConnectionState.OFFER_SENT ∨
      rec.state = ConnectionState.ANSWER_RECEIVED ∨
      rec.state = ConnectionState.CONNECTED) →
        handleOfferRec tr rec offer = (rec, [], HandleResult.ignored)) ∧
    (¬ (rec.state = ConnectionState.OFFER_SENT ∨
        rec.state = ConnectionState.ANSWER_RECEIVED ∨
        rec.state = ConnectionState.CONNECTED) →
        handleOfferRec tr rec offer =
          ({ rec with state := ConnectionState.ANSWER_SENT, processingSignal := false },
           [Effect.stateSet ConnectionState.OFFER_RECEIVED,
            Effect.setRemote rec.peerId offer,
            Effect.setLocal rec.peerId ans,
            Effect.stateSet ConnectionState.ANSWER_SENT,
            Effect.sendAnswerSig rec.peerId ans], HandleResult.processed)) := by
  constructor
  · intro hst
    exact handleOfferRec_invalid_noop tr rec offer hps hst
  · intro hst
    exact handleOfferRec_process tr rec offer ans hps hsr hca hsl hst

/-- Witness for C7 at concrete inputs: a record in `ANSWER_RECEIVED` is left
untouched, a record in `NEW` is answered. -/
theorem handleOffer_state_guard_witness :
    handleOfferRec trOk recAnswerReceived "o" = (recAnswerReceived, [], HandleResult.ignored) ∧
    handleOfferRec trOk recNew "o" =
      ({ recNew with state := ConnectionState.ANSWER_SENT, processingSignal := false },
       [Effect.stateSet ConnectionState.OFFER_RECEIVED,
        Effect.setRemote "p" "o",
        Effect.setLocal "p" "answer-sdp",
        Effect.stateSet ConnectionState.ANSWER_SENT,
        Effect.sendAnswerSig "p" "answer-sdp"], HandleResult.processed) := by
  constructor
  · exact (handleOffer_state_guard trOk recAnswerReceived "o" "answer-sdp"
      rfl rfl rfl rfl).1 (Or.inr (Or.inl rfl))
  · exact (handleOffer_state_guard trOk recNew "o" "answer-sdp"
      rfl rfl rfl rfl).2 (by decide)

/-! ## C8: createAndSendOffer guard and lock discipline -/

/-- Claim C8: `createAndSendOffer` on an existing record with a free lock is
a no-op (no state transition, no offer) when the state is one of the five
invalid states; otherwise it transitions the record through `CONNECTING` to
`OFFER_SENT` and hands the created offer to the signaling client; and on
every exit path — success, failure or early return — the lock
`processingSignal` is false when the operation completes. -/
theorem createAndSendOffer_guard_and_lock (tr : Transport) (rec : PeerConnection)
    (hps : rec.processingSignal = false) :
    ((rec.state = ConnectionState.OFFER_SENT ∨
      rec.state = ConnectionState.OFFER_RECEIVED ∨
      rec.state = ConnectionState.ANSWER_SENT ∨
      rec.state = ConnectionState.ANSWER_RECEIVED ∨
      rec.state = ConnectionState.CONNECTED) →
        createAndSendOfferRec tr rec = (rec, [], HandleResult.ignored)) ∧
    (¬ (rec.state = ConnectionState.OFFER_SENT ∨
        rec.state = ConnectionState.OFFER_RECEIVED ∨
        rec.state = ConnectionState.ANSWER_SENT ∨
        rec.state = ConnectionState.ANSWER_RECEIVED ∨
        rec.state = ConnectionState.CONNECTED) →
      ∀ off, tr.createOffer = some off → tr.setLocalOk = true →
        createAndSendOfferRec tr rec =
          ({ rec with state := ConnectionState.OFFER_SENT, processingSignal := false },
           [Effect.stateSet ConnectionState.CONNECTING,
            Effect.setLocal rec.peerId off,
            Effect.stateSet ConnectionState.OFFER_SENT,
            Effect.sendOfferSig rec.peerId off], HandleResult.processed)) ∧
    (∀ tr₂ : Transport, ((createAndSendOfferRec tr₂ rec).1).processingSignal = false) := by
  refine ⟨fun hst => createAndSendOfferRec_invalid_noop tr rec hps hst,
          fun hst off hco hsl => createAndSendOfferRec_process tr rec off hps hco hsl hst,
          fun tr₂ => createAndSendOfferRec_lock_released tr₂ rec hps⟩

/-- Witness for C8 at concrete inputs: `ANSWER_SENT` is skipped, `NEW` sends
an offer, and the lock ends free on the failing transport too. -/
theorem createAndSendOffer_guard_and_lock_witness :
    createAndSendOfferRec trOk recAnswerSent = (recAnswerSent, [], HandleResult.ignored) ∧
    createAndSendOfferRec trOk recNew =
      ({ recNew with state := ConnectionState.OFFER_SENT, processingSignal := false },
       [Effect.stateSet ConnectionState.CONNECTING,
        Effect.setLocal "p" "offer-sdp",
        Effect.stateSet ConnectionState.OFFER_SENT,
        Effect.sendOfferSig "p" "offer-sdp"], HandleResult.processed) ∧
    ((createAndSendOfferRec
        { createOffer := none, createAnswer := none,
          setRemoteOk := false, setLocalOk := false } recNew).1).processingSignal = false := by
  refine ⟨(createAndSendOffer_guard_and_lock trOk recAnswerSent rfl).1 (by decide),
          (createAndSendOffer_guard_and_lock trOk recNew rfl).2.1 (by decide) "offer-sdp" rfl rfl,
          (createAndSendOffer_guard_and_lock trOk recNew rfl).2.2 _⟩

/-! ## C2: redelivery of offers and answers -/

/-- Counterexample to claim C2: redelivering an offer to a record that has
already processed one (state `ANSWER_SENT`, lock free) is not a no-op — the
handler reprocesses it, transiently regressing the state to `OFFER_RECEIVED`,
applying the remote description a second time and sending a second answer. -/
theorem handleOffer_redelivery_not_noop :
    (handleOfferRec trOk recAnswerSent "o").2.2 = HandleResult.processed ∧
    Effect.setRemote "p" "o" ∈ (handleOfferRec trOk recAnswerSent "o").2.1 ∧
    Effect.stateSet ConnectionState.OFFER_RECEIVED ∈ (handleOfferRec trOk recAnswerSent "o").2.1 ∧
    Effect.sendAnswerSig "p" "answer-sdp" ∈ (handleOfferRec trOk recAnswerSent "o").2.1 := by
  decide

/-- Claim C2 as amended: offer redelivery is a no-op only when the record's
state is `OFFER_SENT`, `ANSWER_RECEIVED` or `CONNECTED`; at `ANSWER_SENT` the
offer is reprocessed (remote description applied again, a fresh answer sent,
the final state again `ANSWER_SENT`); answer redelivery after
`ANSWER_RECEIVED` (or once `CONNECTED`) is a no-op. -/
theorem signal_redelivery_amended (tr : Transport) (rec : PeerConnection)
    (offer answer : String) (hps : rec.processingSignal = false) :
    ((rec.state = ConnectionState.OFFER_SENT ∨
      rec.state = ConnectionState.ANSWER_RECEIVED ∨
      rec.state = ConnectionState.CONNECTED) →
        handleOfferRec tr rec offer = (rec, [], HandleResult.ignored)) ∧
    ((rec.state = ConnectionState.ANSWER_RECEIVED ∨
      rec.state = ConnectionState.CONNECTED) →
        handleAnswerRec tr rec answer = (rec, [], HandleResult.ignored)) ∧
    (rec.state = ConnectionState.ANSWER_SENT →
      ∀ ans, tr.setRemoteOk = true → tr.createAnswer = some ans → tr.setLocalOk = true →
        Effect.setRemote rec.peerId offer ∈ (handleOfferRec tr rec offer).2.1 ∧
        ((handleOfferRec tr rec offer).1).state = ConnectionState.ANSWER_SENT) := by
  refine ⟨fun hst => handleOfferRec_invalid_noop tr rec offer hps hst,
          fun hst => handleAnswerRec_invalid_noop tr rec answer hps hst,
          fun hst ans hsr hca hsl => ?_⟩
  have hproc := handleOfferRec_process tr rec offer ans hps hsr hca hsl
    (by rw [hst]; decide)
  rw [hproc]
  simp

/-- Witness for the amended C2 at concrete inputs. -/
theorem signal_redelivery_amended_witness :
    handleOfferRec trOk recAnswerReceived "o" = (recAnswerReceived, [], HandleResult.ignored) ∧
    handleAnswerRec trOk recAnswerReceived "x" = (recAnswerReceived, [], HandleResult.ignored) ∧
    Effect.setRemote "p" "o" ∈ (handleOfferRec trOk recAnswerSent "o").2.1 := by
  refine ⟨(signal_redelivery_amended trOk recAnswerReceived "o" "x" rfl).1 (Or.inr (Or.inl rfl)),
          (signal_redelivery_amended trOk recAnswerReceived "o" "x" rfl).2.1 (Or.inl rfl),
          ((signal_redelivery_amended trOk recAnswerSent "o" "x" rfl).2.2 rfl
            "answer-sdp" rfl rfl rfl).1⟩

/-! ## C3: the connected side effect -/

/-- Counterexample to claim C3: when the transport-level connected
notification arrives first and the data-channel open notification second, the
connection callback fires twice for the same record — the channel-open
handler is not gated by the `connected` boolean. -/
theorem connected_side_effect_fires_twice :
    connectCbCount ((onConnectionStateChangeRec recConnecting RTCConnEvent.connected).2 ++
      (channelOnOpenRec (onConnectionStateChangeRec recConnecting RTCConnEvent.connected).1).2) = 2 ∧
    ((onConnectionStateChangeRec recConnecting RTCConnEvent.connected).1).connected = true := by
  decide

/-- Claim C3 as amended: only the transport connection-state handler is gated
by the `connected` boolean — it fires the connected side effect exactly when
`connected` was false; the data-channel open handler fires it
unconditionally, so a record receiving both signals fires it twice. -/
theorem connected_side_effect_gating_amended (rec : PeerConnection) :
    (rec.connected = true →
      connectCbCount (onConnectionStateChangeRec rec RTCConnEvent.connected).2 = 0) ∧
    (rec.connected = false →
      connectCbCount (onConnectionStateChangeRec rec RTCConnEvent.connected).2 = 1) ∧
    connectCbCount (channelOnOpenRec rec).2 = 1 := by
  obtain ⟨pid, ih, hdc, ii, conn, st, ps⟩ := rec
  cases conn <;>
    simp [onConnectionStateChangeRec, channelOnOpenRec, connectCbCount]

/-- Witness for the amended C3 at a concrete record. -/
theorem connected_side_effect_gating_amended_witness :
    connectCbCount (onConnectionStateChangeRec recConnecting RTCConnEvent.connected).2 = 1 ∧
    connectCbCount (channelOnOpenRec recConnecting).2 = 1 := by
  exact ⟨(connected_side_effect_gating_amended recConnecting).2.1 rfl,
         (connected_side_effect_gating_amended recConnecting).2.2⟩

/-! ## C1: uniqueness per peer and teardown before replacement -/

theorem keysNodup_createAndSendOffer (tr : Transport) (t : ConnTable) (p : String)
    (h : keysNodup t) : keysNodup (createAndSendOffer tr t p).1 := by
  rw [createAndSendOffer]
  cases alookup t p with
  | none => exact h
  | some rec => exact keysNodup_aset t p _ h

theorem keysNodup_connectFresh (tr : Transport) (t : ConnTable) (p : String)
    (isHost isInitiator : Bool) (h : keysNodup t) :
    keysNodup (connectFresh tr t p isHost isInitiator).1 := by
  rw [connectFresh]
  cases isInitiator with
  | false => simpa using keysNodup_aset t p _ h
  | true => simpa using keysNodup_createAndSendOffer tr _ p (keysNodup_aset t p _ h)

/-- Claim C1: the connections table keeps at most one record per peer
identifier (hence at most one non-terminal record), `connectToPeer` leaves a
non-terminal existing record alone, and when it replaces a terminal
(`DISCONNECTED`/`FAILED`) record it first closes that record's data channel
(when present) and its transport connection and removes it from the table —
the fresh record is created on the erased table, after the teardown
actions. -/
theorem connectToPeer_unique_and_teardown (tr : Transport) (selfId : String)
    (t : ConnTable) (peerId : String) (isHost isInitiator : Bool)
    (h : keysNodup t) :
    (keysNodup (connectToPeer tr selfId t peerId isHost isInitiator).1 ∧
     ∀ k, countFor (connectToPeer tr selfId t peerId isHost isInitiator).1 k ≤ 1) ∧
    (∀ ex, alookup t peerId = some ex →
       ex.state ≠ ConnectionState.DISCONNECTED → ex.state ≠ ConnectionState.FAILED →
       connectToPeer tr selfId t peerId isHost isInitiator = (t, [])) ∧
    (∀ ex, alookup t peerId = some ex → peerId ≠ selfId →
       (ex.state = ConnectionState.DISCONNECTED ∨ ex.state = ConnectionState.FAILED) →
       connectToPeer tr selfId t peerId isHost isInitiator =
         ((connectFresh tr (aerase t peerId) peerId isHost isInitiator).1,
          teardownEffects ex peerId ++
            (connectFresh tr (aerase t peerId) peerId isHost isInitiator).2)) := by
  by_cases hself : peerId = selfId
  · have heq : connectToPeer tr selfId t peerId isHost isInitiator = (t, []) := by
      simp [connectToPeer, hself]
    refine ⟨⟨by rw [heq]; exact h, fun k => by rw [heq]; exact countFor_le_one t k h⟩,
            fun ex _ _ _ => heq, fun ex _ hne _ => absurd hself hne⟩
  · cases halk : alookup t peerId with
    | none =>
        have heq : connectToPeer tr selfId t peerId isHost isInitiator =
            connectFresh tr t peerId isHost isInitiator := by
          simp [connectToPeer, hself, halk]
        refine ⟨⟨by rw [heq]; exact keysNodup_connectFresh tr t peerId isHost isInitiator h,
                 fun k => by
                   rw [heq]
                   exact countFor_le_one _ k (keysNodup_connectFresh tr t peerId isHost isInitiator h)⟩,
                fun ex hex => absurd hex (by simp),
                fun ex hex => absurd hex (by simp)⟩
    | some ex =>
        by_cases hterm : ex.state ≠ ConnectionState.DISCONNECTED ∧
            ex.state ≠ ConnectionState.FAILED
        · have heq : connectToPeer tr selfId t peerId isHost isInitiator = (t, []) := by
            simp [connectToPeer, hself, halk, hterm]
          refine ⟨⟨by rw [heq]; exact h, fun k => by rw [heq]; exact countFor_le_one t k h⟩,
                  fun ex₂ _ _ _ => heq, fun ex₂ hex₂ _ hst => ?_⟩
          injection hex₂ with hex₂
          subst hex₂
          rcases hst with hst | hst
          · exact absurd hst hterm.1
          · exact absurd hst hterm.2
        · have heq : connectToPeer tr selfId t peerId isHost isInitiator =
              ((connectFresh tr (aerase t peerId) peerId isHost isInitiator).1,
               teardownEffects ex peerId ++
                 (connectFresh tr (aerase t peerId) peerId isHost isInitiator).2) := by
            simp [connectToPeer, hself, halk, hterm, teardownEffects]
          have hnodup : keysNodup (connectFresh tr (aerase t peerId) peerId isHost isInitiator).1 :=
            keysNodup_connectFresh tr _ peerId isHost isInitiator (keysNodup_aerase t peerId h)
          refine ⟨⟨by rw [heq]; exact hnodup,
                   fun k => by rw [heq]; exact countFor_le_one _ k hnodup⟩,
                  fun ex₂ hex₂ hd hf => ?_, fun ex₂ hex₂ _ _ => ?_⟩
          · injection hex₂ with hex₂
            subst hex₂
            exact absurd ⟨hd, hf⟩ hterm
          · injection hex₂ with hex₂
            subst hex₂
            exact heq

/-- Witness for C1 at a concrete table holding a terminal record. -/
theorem connectToPeer_unique_and_teardown_witness :
    countFor (connectToPeer trOk "a" [("b", recFailed)] "b" false true).1 "b" ≤ 1 ∧
    connectToPeer trOk "a" [("b", recFailed)] "b" false true =
      ((connectFresh trOk (aerase [("b", recFailed)] "b") "b" false true).1,
       teardownEffects recFailed "b" ++
         (connectFresh trOk (aerase [("b", recFailed)] "b") "b" false true).2) := by
  refine ⟨(connectToPeer_unique_and_teardown trOk "a" [("b", recFailed)] "b" false true
            (by simp [keysNodup, akeys])).1.2 "b", ?_⟩
  exact (connectToPeer_unique_and_teardown trOk "a" [("b", recFailed)] "b" false true
    (by simp [keysNodup, akeys])).2.2 recFailed rfl (by decide) (Or.inr (by decide))

/-! ## Lemmas about the signaling route -/

/-- All pending records of a mailbox. -/
def recordsOfPeer (p : PeerInfo) : List SignalRecord := p.offers ++ p.answers

/-- All pending records across the mailboxes of a peer table. -/
def peersRecords (peers : List (String × PeerInfo)) : List SignalRecord :=
  (peers.map Prod.snd).flatMap recordsOfPeer

theorem handlePost_poll_eq (rooms : List (String × RoomInfo)) (req : SignalRequest)
    (now : Int) (ha : req.action = "poll") (hr : req.roomId ≠ "") (hp : req.peerId ≠ "") :
    handlePost rooms req now =
      (aset rooms req.roomId
        (doPoll (roomPrelude rooms req.roomId req.peerId now) req.peerId
          (req.lastPoll.getD 0) now).1,
       (doPoll (roomPrelude rooms req.roomId req.peerId now) req.peerId
          (req.lastPoll.getD 0) now).2) := by
  simp [handlePost, ha, hr, hp]

theorem handlePost_invalid_of_empty (rooms : List (String × RoomInfo)) (req : SignalRequest)
    (now : Int) (hv : req.action = "" ∨ req.roomId = "" ∨ req.peerId = "") :
    handlePost rooms req now = (rooms, SignalResponse.errorR "Invalid request" 400) := by
  rw [handlePost, if_pos hv]

theorem doPoll_resp (room : RoomInfo) (pid : String) (lp now : Int) (r : PollResponse)
    (h : (doPoll room pid lp now).2 = SignalResponse.pollR r) :
    r.offers = ((room.peers.map Prod.snd).flatMap PeerInfo.offers).filter
      (fun o => o.fromPeer != pid && decide (lp < o.timestamp)) ∧
    r.answers = ((room.peers.map Prod.snd).flatMap PeerInfo.answers).filter
      (fun a => a.fromPeer != pid && decide (lp < a.timestamp)) ∧
    r.timestamp = now := by
  simp only [doPoll] at h
  injection h with h
  subst h
  exact ⟨rfl, rfl, rfl⟩

theorem poll_records_gt_cursor (rooms : List (String × RoomInfo)) (req : SignalRequest)
    (now : Int) (r : PollResponse) (ha : req.action = "poll")
    (hres : (handlePost rooms req now).2 = SignalResponse.pollR r) :
    ∀ rec, (rec ∈ r.offers ∨ rec ∈ r.answers) → req.lastPoll.getD 0 < rec.timestamp := by
  intro rec hrec
  by_cases hv : req.roomId = "" ∨ req.peerId = ""
  · rw [handlePost_invalid_of_empty rooms req now (Or.inr hv)] at hres
    exact absurd hres (by simp)
  · push_neg at hv
    rw [handlePost_poll_eq rooms req now ha hv.1 hv.2] at hres
    obtain ⟨ho, hasw, -⟩ := doPoll_resp _ _ _ _ _ hres
    rcases hrec with hrec | hrec
    · rw [ho] at hrec
      have := (List.mem_filter.mp hrec).2
      simp at this
      exact this.2
    · rw [hasw] at hrec
      have := (List.mem_filter.mp hrec).2
      simp at this
      exact this.2

/-! ## C6: poll monotonicity -/

/-- Claim C6: when a poll with cursor `t1` returns server timestamp `t2 > t1`
and the next poll uses cursor `t2`, the second poll returns no offer or
answer record with timestamp at most `t1` (every returned record is strictly
newer than the cursor used). -/
theorem poll_monotonic (rooms₁ rooms₂ : List (String × RoomInfo))
    (req₁ req₂ : SignalRequest) (now₁ now₂ : Int) (r₁ r₂ : PollResponse) (t1 : Int)
    (ha₁ : req₁.action = "poll") (hc₁ : req₁.lastPoll = some t1)
    (h₁ : (handlePost rooms₁ req₁ now₁).2 = SignalResponse.pollR r₁)
    (hlt : t1 < r₁.timestamp)
    (ha₂ : req₂.action = "poll") (hc₂ : req₂.lastPoll = some r₁.timestamp)
    (h₂ : (handlePost rooms₂ req₂ now₂).2 = SignalResponse.pollR r₂) :
    ∀ rec, (rec ∈ r₂.offers ∨ rec ∈ r₂.answers) → ¬ rec.timestamp ≤ t1 := by
  intro rec hrec
  have hgt := poll_records_gt_cursor rooms₂ req₂ now₂ r₂ ha₂ h₂ rec hrec
  rw [hc₂] at hgt
  simp only [Option.getD_some] at hgt
  omega

/-- Request used by the C6 witness: a poll with cursor 0 by peer `a`. -/
def pollReqW (c : Int) : SignalRequest :=
  { action := "poll", roomId := "r", peerId := "a", isHost := false,
    target := none, offer := none, answer := none, lastPoll := some c }

/-- Store holding one offer record enqueued at time 7 in peer `a`'s mailbox
of room `r`, deposited by peer `b`. -/
def roomsMono : List (String × RoomInfo) :=
  [("r", { hostPeerId := none,
           peers := [("a", ({ peerId := "a", lastSeen := 7,
                              offers := [{ fromPeer := "b", payload := "sdp", timestamp := 7 }],
                              answers := [] } : PeerInfo))],
           created := 7, lastActivity := 7 })]

/-- Witness for C6: a first poll at cursor 0 returns timestamp 5; the second
poll at cursor 5 returns the record enqueued at time 7, whose timestamp is
not below the first cursor 0. -/
theorem poll_monotonic_witness :
    ¬ ({ fromPeer := "b", payload := "sdp", timestamp := 7 } : SignalRecord).timestamp ≤
      (0 : Int) := by
  exact poll_monotonic [] roomsMono (pollReqW 0) (pollReqW 5) 5 9
    { success := true, offers := [], answers := [], newPeers := [], timestamp := 5 }
    { success := true,
      offers := [{ fromPeer := "b", payload := "sdp", timestamp := 7 }],
      answers := [], newPeers := [], timestamp := 9 }
    0 rfl rfl (by decide) (by decide) rfl rfl (by decide)
    { fromPeer := "b", payload := "sdp", timestamp := 7 } (Or.inl (by decide))

/-! ## C5: retention window -/

theorem peersRecords_nil : peersRecords [] = [] := rfl

theorem peersRecords_cons (hd : String × PeerInfo) (rest : List (String × PeerInfo)) :
    peersRecords (hd :: rest) = recordsOfPeer hd.2 ++ peersRecords rest := by
  simp [peersRecords]

theorem doPoll_prunes (room : RoomInfo) (pid : String) (lp now : Int) :
    ∀ rec ∈ peersRecords (doPoll room pid lp now).1.peers,
      now - 60000 < rec.timestamp := by
  intro rec hrec
  simp only [doPoll] at hrec
  simp only [peersRecords, List.map_map, List.mem_flatMap, List.mem_map] at hrec
  obtain ⟨p, ⟨kp, hkp, hp⟩, hmem⟩ := hrec
  subst hp
  rw [recordsOfPeer] at hmem
  simp only [pruneInfo] at hmem
  rcases List.mem_append.mp hmem with hm | hm
  · have h2 := List.mem_filter.mp hm
    exact of_decide_eq_true h2.2
  · have h2 := List.mem_filter.mp hm
    exact of_decide_eq_true h2.2

theorem peersRecords_aupdate_lastSeen (peers : List (String × PeerInfo)) (k : String) (n : Int) :
    peersRecords (aupdate peers k (fun p => { p with lastSeen := n })) =
      peersRecords peers := by
  induction peers with
  | nil => rfl
  | cons hd rest ih =>
      obtain ⟨k', p'⟩ := hd
      by_cases hk : k' = k
      · simp [aupdate, hk, peersRecords, recordsOfPeer]
      · simp only [aupdate, if_neg hk]
        simp [peersRecords, recordsOfPeer] at ih ⊢
        rw [ih]

theorem peersRecords_aset_empty_sub (peers : List (String × PeerInfo)) (k : String)
    (pi : PeerInfo) (ho : pi.offers = []) (ha : pi.answers = []) :
    ∀ rec ∈ peersRecords (aset peers k pi), rec ∈ peersRecords peers := by
  induction peers with
  | nil =>
      intro rec hrec
      rw [aset, peersRecords_cons, peersRecords_nil, recordsOfPeer] at hrec
      simp [ho, ha] at hrec
  | cons hd rest ih =>
      obtain ⟨k', p'⟩ := hd
      intro rec hrec
      by_cases hk : k' = k
      · rw [aset, if_pos hk, peersRecords_cons] at hrec
        rw [peersRecords_cons]
        rcases List.mem_append.mp hrec with hm | hm
        · rw [recordsOfPeer] at hm
          simp [ho, ha] at hm
        · exact List.mem_append.mpr (Or.inr hm)
      · rw [aset, if_neg hk, peersRecords_cons] at hrec
        rw [peersRecords_cons]
        rcases List.mem_append.mp hrec with hm | hm
        · exact List.mem_append.mpr (Or.inl hm)
        · exact List.mem_append.mpr (Or.inr (ih rec hm))

theorem roomPrelude_records_sub (rooms : List (String × RoomInfo)) (rid pid : String)
    (now : Int) :
    ∀ rec ∈ peersRecords (roomPrelude rooms rid pid now).peers,
      ∃ room, alookup rooms rid = some room ∧ rec ∈ peersRecords room.peers := by
  intro rec hrec
  simp only [roomPrelude] at hrec
  cases halk : alookup rooms rid with
  | none =>
      rw [halk] at hrec
      simp only [Option.getD_none] at hrec
      rw [peersRecords_aupdate_lastSeen] at hrec
      cases hlp : alookup ([] : List (String × PeerInfo)) pid with
      | none =>
          rw [hlp] at hrec
          simp at hrec
          have := peersRecords_aset_empty_sub ([] : List (String × PeerInfo)) pid
            { peerId := pid, lastSeen := now, offers := [], answers := [] } rfl rfl rec hrec
          simp [peersRecords] at this
      | some q => simp [alookup] at hlp
  | some room =>
      rw [halk] at hrec
      simp only [Option.getD_some] at hrec
      rw [peersRecords_aupdate_lastSeen] at hrec
      refine ⟨room, rfl, ?_⟩
      cases hlp : alookup room.peers pid with
      | none =>
          rw [hlp] at hrec
          simp only at hrec
          exact peersRecords_aset_empty_sub room.peers pid
            { peerId := pid, lastSeen := now, offers := [], answers := [] } rfl rfl rec hrec
      | some q =>
          rw [hlp] at hrec
          simpa using hrec

theorem poll_resp_records_in_store (room : RoomInfo) (pid : String) (lp now : Int)
    (r : PollResponse) (h : (doPoll room pid lp now).2 = SignalResponse.pollR r) :
    ∀ rec, (rec ∈ r.offers ∨ rec ∈ r.answers) → rec ∈ peersRecords room.peers := by
  intro rec hrec
  obtain ⟨ho, hasw, -⟩ := doPoll_resp _ _ _ _ _ h
  simp only [peersRecords, recordsOfPeer, List.mem_flatMap]
  rcases hrec with hm | hm
  · rw [ho] at hm
    have := (List.mem_filter.mp hm).1
    rcases List.mem_flatMap.mp this with ⟨p, hp, hmem⟩
    exact ⟨p, hp, List.mem_append.mpr (Or.inl hmem)⟩
  · rw [hasw] at hm
    have := (List.mem_filter.mp hm).1
    rcases List.mem_flatMap.mp this with ⟨p, hp, hmem⟩
    exact ⟨p, hp, List.mem_append.mpr (Or.inr hmem)⟩

/-- Store holding one offer record enqueued at time 1 in peer `a`'s mailbox
of room `r`, deposited by peer `b`. -/
def roomsRet : List (String × RoomInfo) :=
  [("r", { hostPeerId := none,
           peers := [("a", ({ peerId := "a", lastSeen := 1,
                              offers := [{ fromPeer := "b", payload := "sdp", timestamp := 1 }],
                              answers := [] } : PeerInfo))],
           created := 1, lastActivity := 1 })]

/-- Counterexample to claim C5: the record deposited at time 1 is still
returned by a poll processed at time 70000 > 1 + 60000, because the route
prunes only after computing the response — the first poll past the
retention window still delivers the stale record. -/
theorem poll_after_retention_returns_record :
    (1 : Int) + 60000 < 70000 ∧
    (handlePost roomsRet (pollReqW 0) 70000).2 = SignalResponse.pollR
      { success := true,
        offers := [{ fromPeer := "b", payload := "sdp", timestamp := 1 }],
        answers := [], newPeers := [], timestamp := 70000 } := by
  exact ⟨by decide, by decide⟩

/-- Claim C5 as amended: a record deposited at time `t` is absent from every
poll response of the room computed after an earlier poll of that room was
processed at a time `u ≥ t + 60000`: the poll processed at `u` prunes the
record (though its own response may still carry it), so every record a later
poll returns is strictly newer than `u - 60000`. -/
theorem retention_after_prior_poll (rooms : List (String × RoomInfo))
    (req₁ req₂ : SignalRequest) (now₁ now₂ : Int) (r₁ r₂ : PollResponse)
    (ha₁ : req₁.action = "poll") (ha₂ : req₂.action = "poll")
    (hroom : req₂.roomId = req₁.roomId)
    (h₁ : (handlePost rooms req₁ now₁).2 = SignalResponse.pollR r₁)
    (h₂ : (handlePost (handlePost rooms req₁ now₁).1 req₂ now₂).2 = SignalResponse.pollR r₂) :
    ∀ rec, (rec ∈ r₂.offers ∨ rec ∈ r₂.answers) → now₁ - 60000 < rec.timestamp := by
  by_cases hv₁ : req₁.roomId = "" ∨ req₁.peerId = ""
  · rw [handlePost_invalid_of_empty rooms req₁ now₁ (Or.inr hv₁)] at h₁
    exact absurd h₁ (by simp)
  push_neg at hv₁
  by_cases hv₂ : req₂.roomId = "" ∨ req₂.peerId = ""
  · rw [handlePost_invalid_of_empty _ req₂ now₂ (Or.inr hv₂)] at h₂
    exact absurd h₂ (by simp)
  push_neg at hv₂
  rw [handlePost_poll_eq rooms req₁ now₁ ha₁ hv₁.1 hv₁.2] at h₂
  rw [handlePost_poll_eq _ req₂ now₂ ha₂ hv₂.1 hv₂.2] at h₂
  intro rec hrec
  have hstore := poll_resp_records_in_store _ _ _ _ _ h₂ rec hrec
  have hsub := roomPrelude_records_sub _ req₂.roomId req₂.peerId now₂ rec hstore
  obtain ⟨room, hlook, hmem⟩ := hsub
  rw [hroom, alookup_aset_self] at hlook
  injection hlook with hlook
  subst hlook
  exact doPoll_prunes _ _ _ _ rec hmem

/-- Store holding two offer records, from times 1 and 69999, in peer `a`'s
mailbox of room `r`. -/
def roomsRet2 : List (String × RoomInfo) :=
  [("r", { hostPeerId := none,
           peers := [("a", ({ peerId := "a", lastSeen := 1,
                              offers := [{ fromPeer := "b", payload := "sdp", timestamp := 1 },
                                         { fromPeer := "b", payload := "sdp2", timestamp := 69999 }],
                              answers := [] } : PeerInfo))],
           created := 1, lastActivity := 1 })]

/-- Witness for the amended C5: the poll at time 70000 prunes the record from
time 1; a second poll returns only the record from time 69999, which is newer
than 70000 - 60000. -/
theorem retention_after_prior_poll_witness :
    (70000 : Int) - 60000 <
      ({ fromPeer := "b", payload := "sdp2", timestamp := 69999 } : SignalRecord).timestamp := by
  exact retention_after_prior_poll roomsRet2 (pollReqW 0) (pollReqW 0) 70000 70001
    { success := true,
      offers := [{ fromPeer := "b", payload := "sdp", timestamp := 1 },
                 { fromPeer := "b", payload := "sdp2", timestamp := 69999 }],
      answers := [], newPeers := [], timestamp := 70000 }
    { success := true,
      offers := [{ fromPeer := "b", payload := "sdp2", timestamp := 69999 }],
      answers := [], newPeers := [], timestamp := 70001 }
    rfl rfl rfl (by decide) (by decide)
    { fromPeer := "b", payload := "sdp2", timestamp := 69999 } (Or.inl (by decide))

/-! ## C4: deposits to a not-yet-joined target -/

theorem handlePost_offer_eq (rooms : List (String × RoomInfo)) (req : SignalRequest)
    (now : Int) (ha : req.action = "offer") (hr : req.roomId ≠ "") (hp : req.peerId ≠ "")
    (ht : req.target.getD "" ≠ "") (ho : req.offer.getD "" ≠ "") :
    handlePost rooms req now =
      (aset rooms req.roomId
        (doOffer (roomPrelude rooms req.roomId req.peerId now) req.peerId
          (req.target.getD "") (req.offer.getD "") now).1,
       (doOffer (roomPrelude rooms req.roomId req.peerId now) req.peerId
          (req.target.getD "") (req.offer.getD "") now).2) := by
  simp [handlePost, ha, hr, hp, ht, ho]

theorem handlePost_answer_eq (rooms : List (String × RoomInfo)) (req : SignalRequest)
    (now : Int) (ha : req.action = "answer") (hr : req.roomId ≠ "") (hp : req.peerId ≠ "")
    (ht : req.target.getD "" ≠ "") (hasw : req.answer.getD "" ≠ "") :
    handlePost rooms req now =
      (aset rooms req.roomId
        (doAnswer (roomPrelude rooms req.roomId req.peerId now) req.peerId
          (req.target.getD "") (req.answer.getD "") now).1,
       (doAnswer (roomPrelude rooms req.roomId req.peerId now) req.peerId
          (req.target.getD "") (req.answer.getD "") now).2) := by
  simp [handlePost, ha, hr, hp, ht, hasw]

theorem doOffer_creates (room : RoomInfo) (pid tgt payload : String) (now : Int)
    (halk : alookup room.peers tgt = none) :
    (doOffer room pid tgt payload now).2 = SignalResponse.okR ∧
    alookup (doOffer room pid tgt payload now).1.peers tgt = some
      { peerId := tgt, lastSeen := now - 60000,
        offers := [{ fromPeer := pid, payload := payload, timestamp := now }],
        answers := [] } := by
  refine ⟨rfl, ?_⟩
  simp only [doOffer, halk]
  rw [alookup_aupdate]
  simp [alookup_aset_self]

theorem doAnswer_missing (room : RoomInfo) (pid tgt payload : String) (now : Int)
    (halk : alookup room.peers tgt = none) :
    doAnswer room pid tgt payload now =
      (room, SignalResponse.errorR "Target peer not found" 404) := by
  simp [doAnswer, halk]

/-- Answer deposit by peer `a` of room `r` to the unknown target `b`. -/
def ansReqW : SignalRequest :=
  { action := "answer", roomId := "r", peerId := "a", isHost := false,
    target := some "b", offer := none, answer := some "x", lastPoll := none }

/-- Counterexample to claim C4: depositing an answer for a target whose
mailbox does not exist is rejected with a 404 error and creates no mailbox
for the target — only offer deposits create the target's mailbox. -/
theorem answer_deposit_unknown_target_rejected :
    (handlePost [] ansReqW 10).2 = SignalResponse.errorR "Target peer not found" 404 ∧
    (handlePost [] ansReqW 10).1 =
      [("r", { hostPeerId := none,
               peers := [("a", ({ peerId := "a", lastSeen := 10,
                                  offers := [], answers := [] } : PeerInfo))],
               created := 10, lastActivity := 10 })] := by
  decide

/-- Claim C4 as amended: an offer deposited for a target with no mailbox
creates the target's mailbox (with `lastSeen` backdated by 60000 ms), appends
the timestamped record and succeeds; an answer deposited for a target with no
mailbox is rejected with the 404 error `Target peer not found` and the
target's mailbox is not created. -/
theorem deposit_mailbox_creation_amended :
    (∀ rooms req now tgt off,
      req.action = "offer" → req.roomId ≠ "" → req.peerId ≠ "" →
      req.target = some tgt → tgt ≠ "" → req.offer = some off → off ≠ "" →
      alookup (roomPrelude rooms req.roomId req.peerId now).peers tgt = none →
      (handlePost rooms req now).2 = SignalResponse.okR ∧
      ∃ ri, alookup (handlePost rooms req now).1 req.roomId = some ri ∧
        alookup ri.peers tgt = some
          { peerId := tgt, lastSeen := now - 60000,
            offers := [{ fromPeer := req.peerId, payload := off, timestamp := now }],
            answers := [] }) ∧
    (∀ rooms req now tgt ans,
      req.action = "answer" → req.roomId ≠ "" → req.peerId ≠ "" →
      req.target = some tgt → tgt ≠ "" → req.answer = some ans → ans ≠ "" →
      alookup (roomPrelude rooms req.roomId req.peerId now).peers tgt = none →
      (handlePost rooms req now).2 = SignalResponse.errorR "Target peer not found" 404 ∧
      ∃ ri, alookup (handlePost rooms req now).1 req.roomId = some ri ∧
        alookup ri.peers tgt = none) := by
  constructor
  · intro rooms req now tgt off ha hr hp htgt htne hoff hone hmiss
    have heq := handlePost_offer_eq rooms req now ha hr hp
      (by rw [htgt]; simpa using htne) (by rw [hoff]; simpa using hone)
    rw [htgt, hoff] at heq
    simp only [Option.getD_some] at heq
    have hcre := doOffer_creates (roomPrelude rooms req.roomId req.peerId now)
      req.peerId tgt off now hmiss
    rw [heq]
    exact ⟨hcre.1, _, alookup_aset_self _ _ _, hcre.2⟩
  · intro rooms req now tgt ans ha hr hp htgt htne hans hane hmiss
    have heq := handlePost_answer_eq rooms req now ha hr hp
      (by rw [htgt]; simpa using htne) (by rw [hans]; simpa using hane)
    rw [htgt, hans] at heq
    simp only [Option.getD_some] at heq
    have hm := doAnswer_missing (roomPrelude rooms req.roomId req.peerId now)
      req.peerId tgt ans now hmiss
    rw [heq, hm]
    exact ⟨rfl, _, alookup_aset_self _ _ _, hmiss⟩

/-- Offer deposit by peer `a` of room `r` to the unknown target `b`. -/
def offReqW : SignalRequest :=
  { action := "offer", roomId := "r", peerId := "a", isHost := false,
    target := some "b", offer := some "sdp", answer := none, lastPoll := none }

/-- Witness for the amended C4 at concrete deposits into an empty store. -/
theorem deposit_mailbox_creation_amended_witness :
    ((handlePost [] offReqW 100000).2 = SignalResponse.okR ∧
     ∃ ri, alookup (handlePost [] offReqW 100000).1 "r" = some ri ∧
       alookup ri.peers "b" = some
         { peerId := "b", lastSeen := (100000 : Int) - 60000,
           offers := [{ fromPeer := "a", payload := "sdp", timestamp := 100000 }],
           answers := [] }) ∧
    ((handlePost [] ansReqW 10).2 = SignalResponse.errorR "Target peer not found" 404 ∧
     ∃ ri, alookup (handlePost [] ansReqW 10).1 "r" = some ri ∧
       alookup ri.peers "b" = none) := by
  exact ⟨deposit_mailbox_creation_amended.1 [] offReqW 100000 "b" "sdp"
           rfl (by decide) (by decide) rfl (by decide) rfl (by decide) (by decide),
         deposit_mailbox_creation_amended.2 [] ansReqW 10 "b" "x"
           rfl (by decide) (by decide) rfl (by decide) rfl (by decide) (by decide)⟩

/-! ## C9: contents of the join response and cursor initialisation -/

theorem handlePost_join_eq (rooms : List (String × RoomInfo)) (req : SignalRequest)
    (now : Int) (ha : req.action = "join") (hr : req.roomId ≠ "") (hp : req.peerId ≠ "") :
    handlePost rooms req now =
      (aset rooms req.roomId
        (doJoin (roomPrelude rooms req.roomId req.peerId now) req.peerId req.isHost).1,
       (doJoin (roomPrelude rooms req.roomId req.peerId now) req.peerId req.isHost).2) := by
  simp [handlePost, ha, hr, hp]

theorem doJoin_resp_success (room : RoomInfo) (pid : String) (ih : Bool) (r : JoinResponse)
    (h : (doJoin room pid ih).2 = SignalResponse.joinR r) : r.success = true := by
  simp only [doJoin] at h
  injection h with h
  subst h
  rfl

theorem joinJson_no_timestamp (r : JoinResponse) :
    jsonGet (responseJson (SignalResponse.joinR r)) "timestamp" = none := by
  cases hh : r.hostPeerId <;> simp [responseJson, jsonGet, alookup, hh]

/-- Join request by peer `a` announcing itself host of room `r`. -/
def joinReqW : SignalRequest :=
  { action := "join", roomId := "r", peerId := "a", isHost := true,
    target := none, offer := none, answer := none, lastPoll := none }

/-- Counterexample to claim C9: the join success response carries only the
fields `success`, `peers`, `isHost` and `hostPeerId` — it contains no server
timestamp, so the polling client cannot initialise its cursor from
server-reported time. -/
theorem join_response_no_timestamp :
    (handlePost [] joinReqW 1000).2 = SignalResponse.joinR
      { success := true, peers := [], isHost := true, hostPeerId := some "a" } ∧
    jsonGet (responseJson (handlePost [] joinReqW 1000).2) "timestamp" = none := by
  refine ⟨by decide, ?_⟩
  rfl

/-- Claim C9 as amended: the join success response carries the success flag,
the peer list, the requester's `isHost` flag and the room's `hostPeerId`, but
no timestamp field; the polling client initialises its cursor from its own
clock (`Date.now()`), not from any server-reported time. -/
theorem join_response_fields_and_client_cursor :
    (∀ rooms req now r, req.action = "join" →
       (handlePost rooms req now).2 = SignalResponse.joinR r →
       r.success = true ∧
       jsonGet (responseJson (SignalResponse.joinR r)) "timestamp" = none) ∧
    (∀ resp clientNow ps cur, clientJoin resp clientNow = some (ps, cur) →
       cur = clientNow) := by
  constructor
  · intro rooms req now r ha hres
    by_cases hv : req.roomId = "" ∨ req.peerId = ""
    · rw [handlePost_invalid_of_empty rooms req now (Or.inr hv)] at hres
      exact absurd hres (by simp)
    · push_neg at hv
      rw [handlePost_join_eq rooms req now ha hv.1 hv.2] at hres
      exact ⟨doJoin_resp_success _ _ _ _ hres, joinJson_no_timestamp r⟩
  · intro resp clientNow ps cur h
    cases resp with
    | joinR r =>
        rw [clientJoin] at h
        by_cases hs : r.success = true
        · rw [if_pos hs] at h
          injection h with h
          exact (Prod.mk.injEq _ _ _ _ |>.mp h).2.symm
    
        · rw [if_neg hs] at h
          exact absurd h (by simp)
    | okR => exact absurd h (by simp [clientJoin])
    | pollR r => exact absurd h (by simp [clientJoin])
    | errorR m st => exact absurd h (by simp [clientJoin])

/-- Witness for the amended C9 at a concrete join of the empty store and a
concrete client-side join completion. -/
theorem join_response_fields_witness :
    (({ success := true, peers := [], isHost := true,
        hostPeerId := some "a" } : JoinResponse).success = true ∧
     jsonGet (responseJson (SignalResponse.joinR
       { success := true, peers := [], isHost := true, hostPeerId := some "a" }))
       "timestamp" = none) ∧
    (42 : Int) = 42 := by
  refine ⟨join_response_fields_and_client_cursor.1 [] joinReqW 1000 _ rfl (by decide), ?_⟩
  exact join_response_fields_and_client_cursor.2
    (SignalResponse.joinR { success := true, peers := [], isHost := true, hostPeerId := some "a" })
    42 [] 42 (by decide)

/-! ## C10: backdated mailbox creation and the newPeers threshold -/

theorem alookup_map_value {β γ : Type} (t : List (String × β)) (g : β → γ) (k : String) :
    alookup (t.map (fun kp => (kp.1, g kp.2))) k = (alookup t k).map g := by
  induction t with
  | nil => rfl
  | cons hd rest ih =>
      obtain ⟨k', v'⟩ := hd
      by_cases hk : k' = k
      · simp [alookup, hk]
      · simp [alookup, hk, ih]

theorem akeys_map_value {β γ : Type} (t : List (String × β)) (g : β → γ) :
    akeys (t.map (fun kp => (kp.1, g kp.2))) = akeys t := by
  induction t with
  | nil => rfl
  | cons hd rest ih => simp only [List.map_cons, akeys] at ih ⊢; rw [ih]

theorem alookup_eq_some_iff_mem_akeys {β : Type} (t : List (String × β)) (k : String) :
    (∃ v, alookup t k = some v) ↔ k ∈ akeys t := by
  induction t with
  | nil => simp [alookup, akeys]
  | cons hd rest ih =>
      obtain ⟨k', v'⟩ := hd
      by_cases hk : k' = k
      · simp [alookup, hk, akeys]
      · have hne : ¬ (k = k') := fun hh => hk hh.symm
        simp [alookup, hk, akeys, hne, ih]

theorem doPoll_newPeers (room : RoomInfo) (pid : String) (lp now : Int) (r : PollResponse)
    (h : (doPoll room pid lp now).2 = SignalResponse.pollR r) :
    ∀ tgt, tgt ∈ r.newPeers.map PeerEntry.peerId ↔
      (tgt ≠ pid ∧ ∃ p, alookup room.peers tgt = some p ∧ lp < p.lastSeen) := by
  simp only [doPoll] at h
  injection h with h
  subst h
  intro tgt
  simp only [List.map_map]
  constructor
  · intro hmem
    rcases List.mem_map.mp hmem with ⟨idp, hidp, hid⟩
    simp only [Function.comp] at hid
    subst hid
    have hfil := List.mem_filter.mp hidp
    have hkey : idp ∈ akeys room.peers := by
      have := hfil.1
      rwa [akeys_map_value] at this
    have hpred := hfil.2
    rw [Bool.and_eq_true] at hpred
    obtain ⟨hne, hseen⟩ := hpred
    rw [bne_iff_ne] at hne
    rw [peerSeenAfter, alookup_map_value] at hseen
    cases halk : alookup room.peers idp with
    | none => rw [halk] at hseen; simp at hseen
    | some p =>
        rw [halk] at hseen
        simp [pruneInfo] at hseen
        exact ⟨hne, p, rfl, hseen⟩
  · rintro ⟨hne, p, halk, hseen⟩
    have hkey : tgt ∈ akeys room.peers :=
      (alookup_eq_some_iff_mem_akeys room.peers tgt).mp ⟨p, halk⟩
    refine List.mem_map.mpr ⟨tgt, List.mem_filter.mpr ⟨?_, ?_⟩, rfl⟩
    · rwa [akeys_map_value]
    · rw [Bool.and_eq_true, bne_iff_ne]
      refine ⟨hne, ?_⟩
      rw [peerSeenAfter, alookup_map_value, halk]
      simp [pruneInfo, hseen]

theorem roomPrelude_lookup_other (rooms : List (String × RoomInfo)) (rid pid tgt : String)
    (now : Int) (hne : tgt ≠ pid) :
    alookup (roomPrelude rooms rid pid now).peers tgt =
      alookup ((alookup rooms rid).getD
        { hostPeerId := none, peers := [], created := now, lastActivity := now }).peers tgt := by
  simp only [roomPrelude]
  cases h : alookup ((alookup rooms rid).getD
      { hostPeerId := none, peers := [], created := now, lastActivity := now }).peers pid with
  | some q =>
      simp only [h]
      rw [alookup_aupdate]
      rw [if_neg (fun hh => hne hh.symm)]
  | none =>
      simp only [h]
      rw [alookup_aupdate]
      rw [if_neg (fun hh => hne hh.symm)]
      exact alookup_aset_ne _ pid tgt _ hne

/-- Claim C10: an offer deposited at time `d` for a target with no mailbox
creates the target's mailbox with `lastSeen = d - 60000`; a subsequent poll
by another peer with cursor `c` lists that target among `newPeers` exactly
when `c < d - 60000` — so only pollers whose cursor is older than the
deposit time minus 60000 ms see the target as a new peer. -/
theorem offer_mailbox_newPeers_threshold (rooms : List (String × RoomInfo))
    (reqO reqP : SignalRequest) (d u c : Int) (tgt off q : String)
    (haO : reqO.action = "offer") (hrO : reqO.roomId ≠ "") (hpO : reqO.peerId ≠ "")
    (htO : reqO.target = some tgt) (htne : tgt ≠ "")
    (hoO : reqO.offer = some off) (hone : off ≠ "")
    (hmiss : alookup (roomPrelude rooms reqO.roomId reqO.peerId d).peers tgt = none)
    (haP : reqP.action = "poll") (hrP : reqP.roomId = reqO.roomId)
    (hpP : reqP.peerId = q) (hqne : q ≠ "") (hqtgt : q ≠ tgt)
    (hcP : reqP.lastPoll = some c) :
    ∀ r, (handlePost (handlePost rooms reqO d).1 reqP u).2 = SignalResponse.pollR r →
      (tgt ∈ r.newPeers.map PeerEntry.peerId ↔ c < d - 60000) := by
  intro r hres
  have heqO := handlePost_offer_eq rooms reqO d haO hrO hpO
    (by rw [htO]; simpa using htne) (by rw [hoO]; simpa using hone)
  rw [htO, hoO] at heqO
  simp only [Option.getD_some] at heqO
  have hcre := doOffer_creates (roomPrelude rooms reqO.roomId reqO.peerId d)
    reqO.peerId tgt off d hmiss
  rw [heqO] at hres
  rw [handlePost_poll_eq _ reqP u haP (by rw [hrP]; exact hrO) (by rw [hpP]; exact hqne)]
    at hres
  rw [hcP] at hres
  simp only [Option.getD_some] at hres
  have hnp := doPoll_newPeers _ reqP.peerId c u r hres tgt
  rw [hnp]
  have hlook : alookup (roomPrelude
      (aset rooms reqO.roomId
        (doOffer (roomPrelude rooms reqO.roomId reqO.peerId d) reqO.peerId tgt off d).1)
      reqP.roomId reqP.peerId u).peers tgt =
      some { peerId := tgt, lastSeen := d - 60000,
             offers := [{ fromPeer := reqO.peerId, payload := off, timestamp := d }],
             answers := [] } := by
    rw [roomPrelude_lookup_other _ _ _ _ _ (by rw [hpP]; exact fun hh => hqtgt hh.symm)]
    rw [hrP, alookup_aset_self]
    simpa using hcre.2
  constructor
  · rintro ⟨-, p, halk, hseen⟩
    rw [hlook] at halk
    injection halk with halk
    subst halk
    simpa using hseen
  · intro hc
    refine ⟨by rw [hpP]; exact fun hh => hqtgt hh.symm, _, hlook, by simpa using hc⟩

/-- Poll request by peer `c` of room `r` with the given cursor. -/
def pollReqC (c : Int) : SignalRequest :=
  { action := "poll", roomId := "r", peerId := "c", isHost := false,
    target := none, offer := none, answer := none, lastPoll := some c }

/-- Witness for C10: after `a` deposits an offer for the unknown `b` at time
100000, a poll by `c` with cursor 39999 lists `b` as a new peer and
39999 < 40000. -/
theorem offer_mailbox_newPeers_threshold_witness :
    "b" ∈ ([{ peerId := "a", isHost := false },
            { peerId := "b", isHost := false }] : List PeerEntry).map PeerEntry.peerId ↔
      (39999 : Int) < 100000 - 60000 := by
  exact offer_mailbox_newPeers_threshold [] offReqW (pollReqC 39999) 100000 100001 39999
    "b" "sdp" "c" rfl (by decide) (by decide) rfl (by decide) rfl (by decide) (by decide)
    rfl rfl rfl (by decide) (by decide) rfl
    { success := true,
      offers := [{ fromPeer := "a", payload := "sdp", timestamp := 100000 }],
      answers := [], newPeers := [{ peerId := "a", isHost := false },
                                  { peerId := "b", isHost := false }],
      timestamp := 100001 }
    (by decide)
